import Mathlib

/-
Shallow embedding of `src/havoc.hpp` (namespace `havoc`).

The header provides:
  * a process-wide monotonic counter `_counter` (`std::atomic_uint64_t`),
    whose only use is `++_counter` (increment, then yield the new value);
  * `optional<T>` — a heap-indirected zero-or-one container (the "Optional
    Box"), modelled here as a wrapper around `Option α`;
  * `option<T>` — a "Timestamped Slot": an `optional<T>` plus the sequence
    number of its last assignment (0 = never assigned);
  * `one_of<T...>` — an inheritance chain of one `option<Ti>` per type,
    modelled here as the list of those slots in declaration order
    (the visitor walks the bases front to back, so a positional list is
    a faithful rendering of the chain);
  * `visit` / `visitor_helper` — the resolution algorithm over the slots.

C++ values of the various alternative types are modelled by a single
value type `V` (think of `V` as the sum of the alternatives); the
algorithm only compares timestamps and finally hands one slot's value to
the visitor, so nothing is lost.  The global counter is threaded
explicitly; it is a `uint64_t`, so every increment is taken mod `2 ^ 64`.
-/

set_option autoImplicit false

namespace havoc

/-- One step of `++_counter` on the `std::atomic_uint64_t` counter: the new
(stored and returned) value, with 64-bit wraparound. -/
def counterNext (c : ℕ) : ℕ := (c + 1) % 2 ^ 64

/-- Counter value after `n` calls of `++_counter` starting from the initial
value 0; this is also the value returned by the `n`-th call. -/
def counterIter : ℕ → ℕ
  | 0 => 0
  | n + 1 => counterNext (counterIter n)

/-- `havoc::optional<T>`: unique ownership of zero-or-one `T`
(`std::unique_ptr<T> _storage`). -/
structure optional (α : Type) where
  _storage : Option α
  deriving DecidableEq

/-- `optional() = default`: empty box (null storage). -/
def optional.mkEmpty {α : Type} : optional α := ⟨none⟩

/-- `optional(T&&)` / `optional(const T&)`: box freshly holding a copy of
the value. -/
def optional.fromValue {α : Type} (value : α) : optional α := ⟨some value⟩

/-- `operator bool() const`: presence check (`_storage.get()` non-null). -/
def optional.toBool {α : Type} (o : optional α) : Bool := o._storage.isSome

/-- `T& get_or_create()`: auto-vivifying accessor.  Returns the contained
value together with the box afterwards (if the box was empty, a
default-constructed value has been materialised). -/
def optional.get_or_create {α : Type} [Inhabited α] (o : optional α) :
    α × optional α :=
  match o._storage with
  | some v => (v, ⟨some v⟩)
  | none => (default, ⟨some (default : α)⟩)

/-- `optional(const optional& other)`: starts empty, then
`if (other) get_or_create() = *other` — a deep copy of the contained value
when present. -/
def optional.copyCtor {α : Type} (other : optional α) : optional α :=
  match other._storage with
  | some v => ⟨some v⟩
  | none => ⟨none⟩

/-- `optional(optional&& other)`: steals the storage.  First component is
the new box, second is `other` afterwards (emptied). -/
def optional.moveCtor {α : Type} (other : optional α) :
    optional α × optional α :=
  (⟨other._storage⟩, ⟨none⟩)

/-- `operator=(T&&)` / `operator=(const T&)`: `get_or_create() = value`
overwrites whatever was (or was just vivified) inside with `value`. -/
def optional.assignValue {α : Type} (_tgt : optional α) (value : α) :
    optional α := ⟨some value⟩

/-- `operator=(const optional& other)`: `if (other) get_or_create() = *other`.
Note: when `other` is empty the body does nothing, so the target keeps its
previous contents. -/
def optional.copyAssign {α : Type} (tgt other : optional α) : optional α :=
  match other._storage with
  | some v => ⟨some v⟩
  | none => tgt

/-- `void reset()`: back to empty. -/
def optional.reset {α : Type} (_o : optional α) : optional α := ⟨none⟩

/-- `havoc::option<T>` (single-type base case): a Timestamped Slot — an
`optional<T> _storage` (declared `mutable`) plus `size_t _timestamp`. -/
structure option (α : Type) where
  _storage : optional α
  _timestamp : ℕ
  deriving DecidableEq

/-- `option()`: empty storage, `_timestamp(0)`. -/
def option.mkDefault {α : Type} : option α := ⟨⟨none⟩, 0⟩

/-- `option(T&&)`: `_storage(value), _timestamp(++_counter)`.  Returns the
slot and the counter afterwards. -/
def option.mkValue {α : Type} (value : α) (c : ℕ) : option α × ℕ :=
  (⟨optional.fromValue value, counterNext c⟩, counterNext c)

/-- `option(const option<T>& other)`: copies storage and timestamp verbatim
(no counter access). -/
def option.copyCtor {α : Type} (other : option α) : option α :=
  ⟨optional.copyCtor other._storage, other._timestamp⟩

/-- `option(option<T>&& other)`: moves the storage, copies the timestamp.
First component is the new slot, second is `other` afterwards (storage
emptied, timestamp untouched). -/
def option.moveCtor {α : Type} (other : option α) : option α × option α :=
  (⟨(optional.moveCtor other._storage).1, other._timestamp⟩,
   ⟨(optional.moveCtor other._storage).2, other._timestamp⟩)

/-- `operator=(T&&)`: `_timestamp = ++_counter; _storage = value`.  Returns
the updated slot and the counter afterwards. -/
def option.assignValue {α : Type} (tgt : option α) (value : α) (c : ℕ) :
    option α × ℕ :=
  (⟨tgt._storage.assignValue value, counterNext c⟩, counterNext c)

/-- `operator=(const option<T>& other)`:
`_timestamp = other._timestamp; _storage = other._storage` (the latter via
`optional::operator=(const optional&)`). -/
def option.copyAssign {α : Type} (tgt other : option α) : option α :=
  ⟨optional.copyAssign tgt._storage other._storage, other._timestamp⟩

/-- `T& operator*() const`: `_storage.get_or_create()` on the `mutable`
storage.  Returns the value read and the slot afterwards (storage possibly
vivified; the timestamp is not touched). -/
def option.deref {α : Type} [Inhabited α] (s : option α) : α × option α :=
  ((s._storage.get_or_create).1, ⟨(s._storage.get_or_create).2, s._timestamp⟩)

/-- `size_t timestamp() const`. -/
def option.timestamp {α : Type} (s : option α) : ℕ := s._timestamp

/-- `havoc::one_of<T...>`: the chain of `option<Ti>` bases, as the list of
its slots in declaration order. -/
abbrev one_of (α : Type) : Type := List (option α)

/-- `visitor_helper<T, Ts...>::visit` / `visitor_helper<T>::visit`,
recursing over the remaining slot list.  The single-slot case is the
`visitor_helper<T>` base case; the two-or-more case is the general one:
if the head slot beats the threshold, the tail is searched with the head's
timestamp as the new threshold and the head's value is used only when that
search comes back empty. -/
def visit_helper {V R : Type} [Inhabited V] (visitor : V → R) :
    ℕ → List (option V) → Option R
  | _, [] => none
  | timestamp, [value] =>
    if value.timestamp > timestamp then some (visitor (value.deref).1)
    else none
  | timestamp, value :: next :: rest =>
    if value.timestamp > timestamp then
      match visit_helper visitor value.timestamp (next :: rest) with
      | some result => some result
      | none => some (visitor (value.deref).1)
    else
      visit_helper visitor timestamp (next :: rest)

/-- `visit(visitor, const one_of<T...>&)`: runs the helper with threshold 0
and returns its result, or a value-initialised result (`return {}`) when no
slot qualified. -/
def visit {V R : Type} [Inhabited V] [Inhabited R] (visitor : V → R)
    (input : one_of V) : R :=
  match visit_helper visitor 0 input with
  | some result => result
  | none => default

/-- `visit(visitor, const optional<T>&)`: single-alternative companion —
`if (input) return visitor.visit(*input); return {};`. -/
def visit_optional {V R : Type} (visitor : V → R) (input : optional V) :
    Option R :=
  match input._storage with
  | some value => some (visitor value)
  | none => none

/-- Construction/mutation histories of a single Timestamped Slot, for
stating history-dependent invariants.  Each constructor is one operation
of `havoc::option<T>`; `movedFrom src` denotes the source object after a
move-construction took its storage, `derefTouch` the slot after a
(possibly auto-vivifying) `operator*`. -/
inductive SlotExpr (α : Type) where
  | mkDefault : SlotExpr α
  | mkValue (value : α) : SlotExpr α
  | copyCtor (src : SlotExpr α) : SlotExpr α
  | moveCtor (src : SlotExpr α) : SlotExpr α
  | movedFrom (src : SlotExpr α) : SlotExpr α
  | assignValue (tgt : SlotExpr α) (value : α) : SlotExpr α
  | copyAssign (tgt src : SlotExpr α) : SlotExpr α
  | derefTouch (tgt : SlotExpr α) : SlotExpr α

/-- Evaluate a slot history against the global counter (threaded
explicitly, sub-histories evaluated left to right). -/
def evalExpr {α : Type} [Inhabited α] : SlotExpr α → ℕ → option α × ℕ
  | .mkDefault, c => (option.mkDefault, c)
  | .mkValue v, c => option.mkValue v c
  | .copyCtor e, c => (option.copyCtor (evalExpr e c).1, (evalExpr e c).2)
  | .moveCtor e, c =>
    ((option.moveCtor (evalExpr e c).1).1, (evalExpr e c).2)
  | .movedFrom e, c =>
    ((option.moveCtor (evalExpr e c).1).2, (evalExpr e c).2)
  | .assignValue e v, c => option.assignValue (evalExpr e c).1 v (evalExpr e c).2
  | .copyAssign e f, c =>
    (option.copyAssign (evalExpr e c).1 (evalExpr f (evalExpr e c).2).1,
     (evalExpr f (evalExpr e c).2).2)
  | .derefTouch e, c => ((option.deref (evalExpr e c).1).2, (evalExpr e c).2)

/-- Whether the slot denoted by a history has ever been the target of an
explicit assignment (value construction or value assignment).  Copies and
moves inherit the status of the source they duplicate — the spec states
that copying "preserves the source's timestamp verbatim", i.e. the copy
stands for the same assignment history as its source; a copy-assignment
replaces the target's history by the source's wholesale. -/
def everAssigned {α : Type} : SlotExpr α → Bool
  | .mkDefault => false
  | .mkValue _ => true
  | .copyCtor e => everAssigned e
  | .moveCtor e => everAssigned e
  | .movedFrom e => everAssigned e
  | .assignValue _ _ => true
  | .copyAssign _ f => everAssigned f
  | .derefTouch e => everAssigned e

/-- Number of sequence numbers drawn (`++_counter`) while evaluating a
slot history. -/
def countDraws {α : Type} : SlotExpr α → ℕ
  | .mkDefault => 0
  | .mkValue _ => 1
  | .copyCtor e => countDraws e
  | .moveCtor e => countDraws e
  | .movedFrom e => countDraws e
  | .assignValue e _ => countDraws e + 1
  | .copyAssign e f => countDraws e + countDraws f
  | .derefTouch e => countDraws e

/-- The helper produces no result exactly when no slot in the remaining
list beats the threshold. -/
theorem visit_helper_eq_none_iff {V R : Type} [Inhabited V] (visitor : V → R) :
    ∀ (l : List (option V)) (θ : ℕ),
      visit_helper visitor θ l = none ↔ ∀ s ∈ l, s.timestamp ≤ θ := by
  intro l
  induction l with
  | nil => intro θ; simp [visit_helper]
  | cons s l ih =>
    intro θ
    cases l with
    | nil =>
      by_cases h : s.timestamp > θ
      · simp [visit_helper, h]
      · simp [visit_helper, h]
        omega
    | cons next rest =>
      by_cases h : s.timestamp > θ
      · simp only [visit_helper, if_pos h]
        cases hinner : visit_helper visitor s.timestamp (next :: rest) with
        | none => simp; intro hsθ; omega
        | some r => simp; intro hsθ; omega
      · simp only [visit_helper, if_neg h]
        rw [ih θ]
        simp only [List.mem_cons]
        constructor
        · intro hall u hu
          rcases hu with hu | hu
          · subst hu; omega
          · exact hall u hu
        · intro hall u hu
          exact hall u (Or.inr hu)

/-- If `m` is a slot of the list beating the threshold and every other slot
beating the threshold has a strictly smaller timestamp, the helper invokes
the visitor on (a read of) `m`'s value and yields its output. -/
theorem visit_helper_eq_some_max {V R : Type} [Inhabited V] (visitor : V → R) :
    ∀ (l : List (option V)) (θ : ℕ) (m : option V),
      m ∈ l → θ < m.timestamp →
      (∀ s ∈ l, θ < s.timestamp → s = m ∨ s.timestamp < m.timestamp) →
      visit_helper visitor θ l = some (visitor (m.deref).1) := by
  intro l
  induction l with
  | nil => intro θ m hm; simp at hm
  | cons s l ih =>
    intro θ m hm hθ hmax
    cases l with
    | nil =>
      rw [List.mem_singleton] at hm
      subst hm
      simp [visit_helper, hθ]
    | cons next rest =>
      by_cases h : θ < s.timestamp
      · rcases hmax s (List.mem_cons_self s _) h with hsm | hlt
        · subst hsm
          have hnone : visit_helper visitor s.timestamp (next :: rest) = none := by
            rw [visit_helper_eq_none_iff]
            intro u hu
            by_cases h1 : θ < u.timestamp
            · rcases hmax u (List.mem_cons_of_mem s hu) h1 with h2 | h2
              · subst h2; exact le_refl _
              · exact le_of_lt h2
            · omega
          simp [visit_helper, h, hnone]
        · have hm' : m ∈ next :: rest := by
            rcases List.mem_cons.mp hm with he | hm'
            · exfalso; subst he; exact lt_irrefl _ hlt
            · exact hm'
          have hrec : visit_helper visitor s.timestamp (next :: rest)
              = some (visitor (m.deref).1) :=
            ih s.timestamp m hm' hlt
              (fun u hu hu2 =>
                hmax u (List.mem_cons_of_mem s hu) (lt_trans h hu2))
          simp [visit_helper, h, hrec]
      · have hm' : m ∈ next :: rest := by
          rcases List.mem_cons.mp hm with he | hm'
          · exfalso; subst he; exact h hθ
          · exact hm'
        have hrec := ih θ m hm' hθ
          (fun u hu hu2 => hmax u (List.mem_cons_of_mem s hu) hu2)
        simp [visit_helper, h, hrec]

/-- C1: over an Alternative Set, the resolution visit produces at most one
result: when `m` is the unique slot whose timestamp exceeds the threshold
`θ` and is maximal among the slots exceeding `θ`, the visitor is invoked
with `m`'s value and its output is returned.  In particular, after
assigning `A := a1` then `B := b1` in a fresh two-slot set (counter
starting at 0), a query with threshold 0 returns `visitor b1`, and after
further assigning `A := a2` it returns `visitor a2`. -/
theorem resolution_selects_unique_max {V R : Type} [Inhabited V] [Inhabited R]
    (visitor : V → R) (θ : ℕ) (l : one_of V) (m : option V)
    (hmem : m ∈ l) (hθ : θ < m.timestamp)
    (hmax : ∀ s ∈ l, θ < s.timestamp → s = m ∨ s.timestamp < m.timestamp) :
    visit_helper visitor θ l = some (visitor (m.deref).1)
    ∧ ∀ a1 b1 a2 : V,
        visit visitor
            [(option.assignValue (option.mkDefault : option V) a1 0).1,
             (option.assignValue (option.mkDefault : option V) b1
               (option.assignValue (option.mkDefault : option V) a1 0).2).1]
          = visitor b1
        ∧ visit visitor
            [(option.assignValue
                (option.assignValue (option.mkDefault : option V) a1 0).1 a2
                (option.assignValue (option.mkDefault : option V) b1
                  (option.assignValue (option.mkDefault : option V) a1 0).2).2).1,
             (option.assignValue (option.mkDefault : option V) b1
               (option.assignValue (option.mkDefault : option V) a1 0).2).1]
          = visitor a2 := by
  refine ⟨visit_helper_eq_some_max visitor l θ m hmem hθ hmax, ?_⟩
  intro a1 b1 a2
  exact ⟨rfl, rfl⟩

/-- Witness for C1 at a concrete two-slot set over `ℕ` with visitor
`fun n => n + 1`: the slot with timestamp 2 wins. -/
theorem resolution_selects_unique_max_witness :
    visit_helper (fun n : ℕ => n + 1) 0
        [(⟨⟨some 10⟩, 1⟩ : option ℕ), ⟨⟨some 20⟩, 2⟩] = some 21 := by
  have h := resolution_selects_unique_max (fun n : ℕ => n + 1) 0
      [(⟨⟨some 10⟩, 1⟩ : option ℕ), ⟨⟨some 20⟩, 2⟩] (⟨⟨some 20⟩, 2⟩ : option ℕ)
      (by decide) (by decide) (by decide)
  exact h.1.trans (by decide)

/-- C2: a freshly constructed Alternative Set (every slot
default-constructed, timestamp 0) queried with threshold 0 yields no
result, and in general whenever no slot's timestamp exceeds `θ` the
helper produces no result (and the top-level query returns the
value-initialised result). -/
theorem resolution_empty_no_result {V R : Type} [Inhabited V] [Inhabited R]
    (visitor : V → R) (θ : ℕ) (l : one_of V) (n : ℕ)
    (h : ∀ s ∈ l, ¬ s.timestamp > θ) :
    visit_helper visitor θ l = none
    ∧ visit_helper visitor 0 (List.replicate n (option.mkDefault : option V))
        = none
    ∧ visit visitor (List.replicate n (option.mkDefault : option V))
        = (default : R) := by
  have hfresh : visit_helper visitor 0
      (List.replicate n (option.mkDefault : option V)) = none := by
    rw [visit_helper_eq_none_iff]
    intro s hs
    rw [List.eq_of_mem_replicate hs]
    exact le_refl 0
  refine ⟨?_, hfresh, ?_⟩
  · rw [visit_helper_eq_none_iff]
    intro s hs
    exact Nat.not_lt.mp (h s hs)
  · rw [visit, hfresh]

/-- Witness for C2 on a concrete non-trivial threshold and a fresh
three-slot set over `ℕ`. -/
theorem resolution_empty_no_result_witness :
    visit_helper (fun n : ℕ => n + 1) 5
        [(⟨⟨some 10⟩, 4⟩ : option ℕ), ⟨⟨some 20⟩, 5⟩] = none
    ∧ visit_helper (fun n : ℕ => n + 1) 0
        (List.replicate 3 (option.mkDefault : option ℕ)) = none := by
  have h := resolution_empty_no_result (fun n : ℕ => n + 1) 5
      [(⟨⟨some 10⟩, 4⟩ : option ℕ), ⟨⟨some 20⟩, 5⟩] 3 (by decide)
  exact ⟨h.1, h.2.1⟩

/-- Evaluating a slot history advances the counter by exactly the number
of sequence numbers it draws, as long as no 64-bit wraparound occurs. -/
theorem evalExpr_counter {α : Type} [Inhabited α] :
    ∀ (e : SlotExpr α) (c : ℕ), c + countDraws e < 2 ^ 64 →
      (evalExpr e c).2 = c + countDraws e := by
  intro e
  induction e with
  | mkDefault => intro c h; simp [evalExpr, countDraws]
  | mkValue v =>
    intro c h
    simp only [countDraws] at h
    simp only [evalExpr, option.mkValue, counterNext]
    exact Nat.mod_eq_of_lt h
  | copyCtor e ih =>
    intro c h
    simp only [countDraws] at h
    simpa only [evalExpr] using ih c h
  | moveCtor e ih =>
    intro c h
    simp only [countDraws] at h
    simpa only [evalExpr] using ih c h
  | movedFrom e ih =>
    intro c h
    simp only [countDraws] at h
    simpa only [evalExpr] using ih c h
  | assignValue e v ih =>
    intro c h
    simp only [countDraws] at h ⊢
    have hc : (evalExpr e c).2 = c + countDraws e := ih c (by omega)
    simp only [evalExpr, option.assignValue, counterNext, hc]
    rw [Nat.mod_eq_of_lt (by omega)]
    omega
  | copyAssign e f ihe ihf =>
    intro c h
    simp only [countDraws] at h ⊢
    have hce : (evalExpr e c).2 = c + countDraws e := ihe c (by omega)
    have hcf := ihf (c + countDraws e) (by omega)
    simp only [evalExpr, hce, hcf]
    omega
  | derefTouch e ih =>
    intro c h
    simp only [countDraws] at h
    simpa only [evalExpr] using ih c h

/-- A slot history yields timestamp 0 exactly when it denotes a
never-explicitly-assigned slot (no wraparound assumed). -/
theorem evalExpr_timestamp_zero_iff {α : Type} [Inhabited α] :
    ∀ (e : SlotExpr α) (c : ℕ), c + countDraws e < 2 ^ 64 →
      ((evalExpr e c).1._timestamp = 0 ↔ everAssigned e = false) := by
  intro e
  induction e with
  | mkDefault => intro c h; simp [evalExpr, option.mkDefault, everAssigned]
  | mkValue v =>
    intro c h
    simp only [countDraws] at h
    simp only [evalExpr, option.mkValue, everAssigned, counterNext]
    rw [Nat.mod_eq_of_lt h]
    simp
  | copyCtor e ih =>
    intro c h
    simp only [countDraws] at h
    simpa only [evalExpr, option.copyCtor, everAssigned] using ih c h
  | moveCtor e ih =>
    intro c h
    simp only [countDraws] at h
    simpa only [evalExpr, option.moveCtor, everAssigned] using ih c h
  | movedFrom e ih =>
    intro c h
    simp only [countDraws] at h
    simpa only [evalExpr, option.moveCtor, everAssigned] using ih c h
  | assignValue e v ih =>
    intro c h
    simp only [countDraws] at h
    have hc : (evalExpr e c).2 = c + countDraws e := evalExpr_counter e c (by omega)
    simp only [evalExpr, option.assignValue, everAssigned, counterNext, hc]
    rw [Nat.mod_eq_of_lt (by omega)]
    simp
  | copyAssign e f ihe ihf =>
    intro c h
    simp only [countDraws] at h
    have hce : (evalExpr e c).2 = c + countDraws e := evalExpr_counter e c (by omega)
    simp only [evalExpr, option.copyAssign, everAssigned, hce]
    exact ihf (c + countDraws e) (by omega)
  | derefTouch e ih =>
    intro c h
    simp only [countDraws] at h
    simpa only [evalExpr, option.deref, everAssigned] using ih c h

/-- C3: a Timestamped Slot's timestamp is 0 exactly when the slot (that is,
the assignment history it currently embodies — copies and moves stand for
their source's history, as copying preserves the timestamp verbatim) has
never been the target of an explicit assignment; this invariant holds after
every operation sequence without counter wraparound, and an auto-vivifying
dereference never changes the timestamp. -/
theorem timestamp_zero_iff_never_assigned {α : Type} [Inhabited α]
    (e : SlotExpr α) (c : ℕ) (h : c + countDraws e < 2 ^ 64) :
    ((evalExpr e c).1._timestamp = 0 ↔ everAssigned e = false)
    ∧ ∀ f : SlotExpr α,
        (evalExpr (SlotExpr.derefTouch f) c).1._timestamp
          = (evalExpr f c).1._timestamp :=
  ⟨evalExpr_timestamp_zero_iff e c h, fun _ => rfl⟩

/-- Witness for C3: a slot assigned 5 and then copy-assigned from a fresh
default slot embodies a never-assigned history and indeed reads timestamp 0. -/
theorem timestamp_zero_iff_never_assigned_witness :
    (0 : ℕ) + countDraws (SlotExpr.copyAssign
        (SlotExpr.assignValue SlotExpr.mkDefault (5 : ℕ)) SlotExpr.mkDefault)
      < 2 ^ 64
    ∧ ((evalExpr (SlotExpr.copyAssign
          (SlotExpr.assignValue SlotExpr.mkDefault (5 : ℕ))
          SlotExpr.mkDefault) 0).1._timestamp = 0
        ↔ everAssigned (SlotExpr.copyAssign
          (SlotExpr.assignValue SlotExpr.mkDefault (5 : ℕ))
          SlotExpr.mkDefault) = false) :=
  ⟨by decide, (timestamp_zero_iff_never_assigned
    (SlotExpr.copyAssign (SlotExpr.assignValue SlotExpr.mkDefault (5 : ℕ))
      SlotExpr.mkDefault) 0 (by decide)).1⟩

/-- The counter value after `n` increments of the 64-bit counter is
`n` reduced mod `2 ^ 64`. -/
theorem counterIter_eq_mod : ∀ n : ℕ, counterIter n = n % 2 ^ 64 := by
  intro n
  induction n with
  | zero => rfl
  | succ n ih =>
    rw [counterIter, counterNext, ih, Nat.add_mod n 1 (2 ^ 64),
      Nat.mod_eq_of_lt (show (1 : ℕ) < 2 ^ 64 by norm_num)]

/-- C7 counterexample: under the claim's own mod-`2 ^ 64` model, the call
number `2 ^ 64` returns 0, which is smaller than the value 1 returned by
the first call, and the call number `2 ^ 64 + 1` repeats the value of the
first call — so the returned values are neither strictly increasing nor
pairwise distinct for every finite sequence of calls. -/
theorem counter_wraparound_cex :
    counterIter 1 = 1 ∧ counterIter (2 ^ 64) = 0
    ∧ ¬ counterIter 1 < counterIter (2 ^ 64)
    ∧ counterIter (2 ^ 64 + 1) = counterIter 1 := by
  have h1 : counterIter 1 = 1 := by decide
  have h2 : counterIter (2 ^ 64) = 0 := by
    rw [counterIter_eq_mod, Nat.mod_self]
  have h3 : counterIter (2 ^ 64 + 1) = 1 := by
    rw [counterIter_eq_mod, Nat.add_mod, Nat.mod_self]
    norm_num
  refine ⟨h1, h2, ?_, h3.trans h1.symm⟩
  rw [h1, h2]
  omega

/-- C7 amended: for every finite sequence of fewer than `2 ^ 64` calls of
`next()` (counter starting from 0), the returned values are pairwise
distinct and each later call returns a value strictly greater than every
earlier one. -/
theorem counter_strictly_increasing_before_wrap (i j : ℕ)
    (hij : i < j) (hj : j < 2 ^ 64) :
    counterIter i < counterIter j ∧ counterIter i ≠ counterIter j := by
  rw [counterIter_eq_mod, counterIter_eq_mod,
    Nat.mod_eq_of_lt (lt_trans hij hj), Nat.mod_eq_of_lt hj]
  exact ⟨hij, Nat.ne_of_lt hij⟩

/-- Witness for the amended C7 at calls 1 and 2. -/
theorem counter_strictly_increasing_before_wrap_witness :
    1 < 2 ∧ 2 < 2 ^ 64 ∧ counterIter 1 < counterIter 2 :=
  ⟨by decide, by decide,
   (counter_strictly_increasing_before_wrap 1 2 (by decide) (by decide)).1⟩

/-- C4 counterexample: copy-assigning from an empty source does not leave
the target empty — a box holding 5 that is copy-assigned from an empty box
still holds its value, contradicting the claim that it "leaves the target
empty". -/
theorem optional_copyAssign_empty_not_clearing :
    ¬ (optional.copyAssign (⟨some 5⟩ : optional ℕ) ⟨none⟩)._storage = none := by
  decide

/-- C4 amended: copy-constructing or copy-assigning from a source holding a
value leaves the target holding an equal (deep-copied) value, and
copy-constructing from an empty source leaves the target empty; but
copy-assigning from an empty source leaves the target unchanged (its
previous contents, if any, persist). -/
theorem optional_copy_semantics {α : Type} (tgt src : optional α) (v : α) :
    (src._storage = some v →
      optional.copyCtor src = ⟨some v⟩
      ∧ optional.copyAssign tgt src = ⟨some v⟩)
    ∧ (src._storage = none →
      optional.copyCtor src = ⟨none⟩
      ∧ optional.copyAssign tgt src = tgt) := by
  obtain ⟨st⟩ := src
  constructor
  · intro h
    simp only at h
    subst h
    exact ⟨rfl, rfl⟩
  · intro h
    simp only at h
    subst h
    exact ⟨rfl, rfl⟩

/-- Witness for the amended C4: a present source is deep-copied; an empty
source leaves a target holding 1 untouched. -/
theorem optional_copy_semantics_witness :
    optional.copyCtor (⟨some 5⟩ : optional ℕ) = ⟨some 5⟩
    ∧ optional.copyAssign (⟨some 1⟩ : optional ℕ) ⟨none⟩ = ⟨some 1⟩ :=
  ⟨((optional_copy_semantics (⟨some 1⟩ : optional ℕ) ⟨some 5⟩ 5).1 rfl).1,
   ((optional_copy_semantics (⟨some 1⟩ : optional ℕ) ⟨none⟩ 5).2 rfl).2⟩

/-- C5: copy-constructing or copy-assigning from a Timestamped Slot holding
`v` with timestamp `t` yields a slot with the same timestamp `t` and an
equal value, and evaluating a copy operation draws no sequence number (the
counter after the copy is exactly the counter after evaluating the
operands). -/
theorem slot_copy_preserves_timestamp {α : Type} [Inhabited α]
    (v : α) (t : ℕ) (tgt : option α) (e f : SlotExpr α) (c : ℕ) :
    option.copyCtor (⟨⟨some v⟩, t⟩ : option α) = ⟨⟨some v⟩, t⟩
    ∧ option.copyAssign tgt (⟨⟨some v⟩, t⟩ : option α) = ⟨⟨some v⟩, t⟩
    ∧ (evalExpr (SlotExpr.copyCtor e) c).2 = (evalExpr e c).2
    ∧ (evalExpr (SlotExpr.copyAssign e f) c).2
        = (evalExpr f (evalExpr e c).2).2 :=
  ⟨rfl, rfl, rfl, rfl⟩

/-- C6: the auto-vivifying accessor on an empty Optional Box materialises a
default-constructed value — afterwards the presence check reports true and
the value (both the one returned and the one stored) is the type's default;
dereferencing an unassigned Timestamped Slot (timestamp 0) leaves its
timestamp at 0. -/
theorem auto_vivification {α : Type} [Inhabited α] (s : option α)
    (h : s._timestamp = 0) :
    (optional.get_or_create (⟨none⟩ : optional α)).1 = (default : α)
    ∧ ((optional.get_or_create (⟨none⟩ : optional α)).2).toBool = true
    ∧ ((optional.get_or_create (⟨none⟩ : optional α)).2)._storage
        = some (default : α)
    ∧ (option.deref s).2._timestamp = 0 :=
  ⟨rfl, rfl, rfl, h⟩

/-- Witness for C6 on a default-constructed slot over `ℕ`. -/
theorem auto_vivification_witness :
    (option.mkDefault : option ℕ)._timestamp = 0
    ∧ (option.deref (option.mkDefault : option ℕ)).2._timestamp = 0 :=
  ⟨rfl, (auto_vivification (option.mkDefault : option ℕ) rfl).2.2.2⟩

/-- C8: the single-alternative visit overload produces a (wrapped) visitor
output exactly when the box is present — on a present box holding `v` it
returns `some (visitor v)`, on an empty box it returns `none`; no
timestamp exists or is consulted on this path. -/
theorem visit_optional_iff_present {V R : Type} (visitor : V → R)
    (input : optional V) (v : V) :
    (visit_optional visitor input).isSome = input.toBool
    ∧ (input._storage = some v →
        visit_optional visitor input = some (visitor v))
    ∧ (input._storage = none → visit_optional visitor input = none) := by
  obtain ⟨st⟩ := input
  cases st with
  | none =>
    refine ⟨rfl, ?_, fun _ => rfl⟩
    intro h
    simp only at h
    exact absurd h (by simp)
  | some w =>
    refine ⟨rfl, ?_, ?_⟩
    · intro h
      simp only [Option.some.injEq] at h
      subst h
      rfl
    · intro h
      simp only at h
      exact absurd h (by simp)

/-- Witness for C8 with visitor `fun n => n + 1` on a present and on an
empty box. -/
theorem visit_optional_iff_present_witness :
    visit_optional (fun n : ℕ => n + 1) (⟨some 3⟩ : optional ℕ) = some 4
    ∧ visit_optional (fun n : ℕ => n + 1) (⟨none⟩ : optional ℕ) = none :=
  ⟨(visit_optional_iff_present (fun n : ℕ => n + 1) ⟨some 3⟩ 3).2.1 rfl,
   (visit_optional_iff_present (fun n : ℕ => n + 1) ⟨none⟩ 0).2.2 rfl⟩

/-- C9: move-constructing from a slot holding `v` with timestamp `t > 0`
takes the value (the new slot equals the original), leaves the moved-from
slot with an empty Optional Box and its timestamp still `t` — so resolution
still selects the moved-from slot (auto-vivifying a default value for the
visitor). -/
theorem moved_from_slot_still_selected {V R : Type} [Inhabited V]
    (visitor : V → R) (v : V) (t : ℕ) (h : 0 < t) :
    (option.moveCtor (⟨⟨some v⟩, t⟩ : option V)).2._storage = ⟨none⟩
    ∧ (option.moveCtor (⟨⟨some v⟩, t⟩ : option V)).2._timestamp = t
    ∧ (option.moveCtor (⟨⟨some v⟩, t⟩ : option V)).1 = ⟨⟨some v⟩, t⟩
    ∧ visit_helper visitor 0 [(option.moveCtor (⟨⟨some v⟩, t⟩ : option V)).2]
        = some (visitor (default : V)) := by
  refine ⟨rfl, rfl, rfl, ?_⟩
  simp [visit_helper, option.moveCtor, optional.moveCtor, option.timestamp,
    option.deref, optional.get_or_create, h]

/-- Witness for C9 at `v = 3`, `t = 7` with visitor `fun n => n + 1`
(the moved-from slot is selected and yields the vivified default 0). -/
theorem moved_from_slot_still_selected_witness :
    visit_helper (fun n : ℕ => n + 1) 0
        [(option.moveCtor (⟨⟨some 3⟩, 7⟩ : option ℕ)).2] = some 1 := by
  have h := moved_from_slot_still_selected (fun n : ℕ => n + 1) 3 7 (by decide)
  exact h.2.2.2.trans (by decide)

/-- C10: copy-assigning a default-constructed slot into a slot holding `v`
with timestamp `t > 0` sets the timestamp to 0 while the Optional Box keeps
holding `v`; the slot no longer exceeds threshold 0 and resolution no
longer sees it despite it holding a value. -/
theorem copy_assign_default_hides_value {V R : Type} [Inhabited V]
    (visitor : V → R) (v : V) (t : ℕ) (_h : 0 < t) :
    (option.copyAssign (⟨⟨some v⟩, t⟩ : option V) option.mkDefault)._timestamp
        = 0
    ∧ (option.copyAssign (⟨⟨some v⟩, t⟩ : option V) option.mkDefault)._storage
        = ⟨some v⟩
    ∧ ¬ (option.copyAssign (⟨⟨some v⟩, t⟩ : option V)
          option.mkDefault).timestamp > 0
    ∧ visit_helper visitor 0
        [option.copyAssign (⟨⟨some v⟩, t⟩ : option V) option.mkDefault]
        = none :=
  ⟨rfl, rfl, lt_irrefl 0, rfl⟩

/-- Witness for C10 at `v = 3`, `t = 7`. -/
theorem copy_assign_default_hides_value_witness :
    (option.copyAssign (⟨⟨some 3⟩, 7⟩ : option ℕ) option.mkDefault)._timestamp
        = 0
    ∧ (option.copyAssign (⟨⟨some 3⟩, 7⟩ : option ℕ) option.mkDefault)._storage
        = ⟨some 3⟩
    ∧ visit_helper (fun n : ℕ => n + 1) 0
        [option.copyAssign (⟨⟨some 3⟩, 7⟩ : option ℕ) option.mkDefault]
        = none := by
  have h := copy_assign_default_hides_value (fun n : ℕ => n + 1) 3 7 (by decide)
  exact ⟨h.1, h.2.1, h.2.2.2⟩


end havoc
